import Mathlib

/-!
Verification of the document-OCR intake and batch-processing pipeline
(`ocr_service/ocr.py`, `ocr_service/routes.py`, `ocr_service/schemas.py`,
`ocr_service/main.py`, `mcp_server/tools.py`) against its written
specification.

The Python code is shallowly embedded: pure fragments become Lean
functions, the filesystem is an explicit list of existing paths,
HTTP traffic and the recognition engine are environment parameters
describing one concrete run, and Python exceptions become explicit
outcome constructors.  Machine integers do not overflow in the modelled
ranges, so byte counts are plain `Nat`.
-/

/- ## String helpers

Python string primitives used by the code, re-implemented over `List Char`
so that every definition reduces inside the kernel.  `pyStrip` models
`str.strip()` (Python whitespace set), `splitSemiHead` models
`s.split(";")[0]`, `strStarts`/`strEnds` model `str.startswith`/`str.endswith`,
and `pyStrLe` is Python's code-point lexicographic string order used by
`sorted(...)`. -/

def isPyWs (c : Char) : Bool :=
  c = ' ' || c = '\t' || c = '\n' || c = '\r' || c = '\x0b' || c = '\x0c'

def pyStripChars (l : List Char) : List Char :=
  ((l.dropWhile isPyWs).reverse.dropWhile isPyWs).reverse

def pyStrip (s : String) : String := String.mk (pyStripChars s.data)

def splitSemiHead (s : String) : String := String.mk (s.data.takeWhile (· != ';'))

def strStarts (s p : String) : Bool := p.data.isPrefixOf s.data

def strEnds (s p : String) : Bool := p.data.isSuffixOf s.data

def charLt (a b : Char) : Bool := a.toNat < b.toNat

def listCharLe : List Char → List Char → Bool
  | [], _ => true
  | _ :: _, [] => false
  | a :: as, b :: bs => if a = b then listCharLe as bs else charLt a b

def pyStrLe (s t : String) : Bool := listCharLe s.data t.data

/-- Insert into a sorted list; building block of `isort`. -/
def insertLe (le : String → String → Bool) (x : String) : List String → List String
  | [] => [x]
  | y :: ys => if le x y then x :: y :: ys else y :: insertLe le x ys

/-- Insertion sort, modelling Python's `sorted(...)` on the relevant inputs. -/
def isort (le : String → String → Bool) : List String → List String
  | [] => []
  | x :: xs => insertLe le x (isort le xs)

/-- `os.path.splitext(name)[1]`: the extension starting at the last dot of
`name`, empty when there is no dot or only leading dots precede it
(e.g. `".bashrc"` has no extension).  The names reaching it in this code
contain no path separators, so the basename handling collapses away. -/
def splitextExt (name : String) : String :=
  let cs := name.data
  match cs.reverse.dropWhile (· ≠ '.') with
  | [] => ""
  | _ :: front =>
      if front.any (· ≠ '.') then
        String.mk ('.' :: (cs.reverse.takeWhile (· ≠ '.')).reverse)
      else ""

/-- Python `sep.join(parts)`. -/
def joinSep (sep : String) : List String → String
  | [] => ""
  | [x] => x
  | x :: y :: xs => x ++ sep ++ joinSep sep (y :: xs)

instance {ε α : Type} [DecidableEq ε] [DecidableEq α] : DecidableEq (Except ε α) :=
  fun x y =>
    match x, y with
    | .ok a, .ok b =>
        if h : a = b then isTrue (by rw [h])
        else isFalse (by intro hc; cases hc; exact h rfl)
    | .error a, .error b =>
        if h : a = b then isTrue (by rw [h])
        else isFalse (by intro hc; cases hc; exact h rfl)
    | .ok _, .error _ => isFalse (by intro hc; cases hc)
    | .error _, .ok _ => isFalse (by intro hc; cases hc)

/- ## Settings

The OCR service reads its limits from a `settings` module that is not part
of the provided sources (only the MCP server's `settings.py` is). -/

/-- Modelled from the spec: the OCR service settings module
(`settings.MAX_DOWNLOAD_SIZE`) is not under the provided sources; the spec
declares "maximum per-file size 10MB". -/
def MAX_DOWNLOAD_SIZE : Nat := 10 * 1024 * 1024

/-- Modelled from the spec: the OCR service settings module
(`settings.MAX_URLS_PER_REQUEST`) is not under the provided sources; the
spec declares "maximum 10 URLs per batch request". -/
def MAX_URLS_PER_REQUEST : Nat := 10

/- ## Schemas (`ocr_service/schemas.py`) -/

inductive OCRStatus
  | success
  | error
deriving DecidableEq, Repr

structure OCRResult where
  url : String
  status : OCRStatus
  text : Option String := none
  error : Option String := none
  error_type : Option String := none
  pages : Option Nat := none
deriving DecidableEq, Repr

structure OCRResponse where
  results : List OCRResult
  total_processed : Nat
  successful : Nat
  failed : Nat
deriving DecidableEq, Repr

structure UploadOCRResponse where
  status : OCRStatus
  text : Option String := none
  error : Option String := none
  pages : Option Nat := none
  filename : String
deriving DecidableEq, Repr

/-- `OCRRequest.validate_urls`: the `field_validator` loops over the list and
raises `ValueError` at the first URL lacking an `http://`/`https://` scheme. -/
def urlSchemeOk (u : String) : Bool := strStarts u "http://" || strStarts u "https://"

def validate_urls (urls : List String) : Except String (List String) :=
  match urls.find? (fun u => ¬ urlSchemeOk u) with
  | some u => .error ("URL must start with http:// or https://: " ++ u)
  | none => .ok urls

/-- Validation applied to `OCRRequest.urls` by pydantic before the route
handler runs: the `Field` length bounds (`min_length=1`,
`max_length=settings.MAX_URLS_PER_REQUEST`) followed by `validate_urls`.
A failure is a single validation error rejecting the whole request. -/
def OCRRequest_validate (urls : List String) : Except String (List String) :=
  if urls.length < 1 then .error "List should have at least 1 item"
  else if urls.length > MAX_URLS_PER_REQUEST then
    .error "List should have at most 10 items"
  else validate_urls urls

/- ## Fetcher (`ocr_service/ocr.py`, `download_file`) -/

def ALLOWED_MIME_TYPES : List String :=
  ["image/png", "image/jpeg", "image/jpg", "image/tiff", "application/pdf"]

/-- The headers and body of one successful (non-raising) `client.get`.
`contentLength` is the parsed `content-length` header (`none` when absent),
`contentTypeHeader` the raw `content-type` header, `bodyLen` the actual
byte length of `response.content`. -/
structure HttpResp where
  contentLength : Option Nat
  contentTypeHeader : Option String
  bodyLen : Nat
deriving DecidableEq, Repr

/-- Outcome of the `i`-th `client.get` a caller would issue for a URL
(the exceptions `httpx` can raise, or a response; `raise_for_status` on a
bad status code is folded into `httpStatusError`). -/
inductive GetResult
  | ok (resp : HttpResp)
  | timeout (msg : String)
  | httpStatusError (code : Nat)
  | requestError (msg : String)
deriving DecidableEq, Repr

/-- `DownloadError` with the distinct messages `download_file` formats.
Kept structured; `render` produces the message string (the `:.1f`
float formatting of the size is abstracted by decimal truncation — no
claim depends on that digit). -/
inductive DownloadErr
  | tooLarge (declaredLen : Nat)
  | unsupportedType (contentType : String)
  | timeout (msg : String)
  | httpStatus (code : Nat)
  | requestFailed (msg : String)
deriving DecidableEq, Repr

def mbRender (n : Nat) : String :=
  let t := n * 10 / (1024 * 1024)
  toString (t / 10) ++ "." ++ toString (t % 10)

def DownloadErr.render : DownloadErr → String
  | .tooLarge n => "File too large: " ++ mbRender n ++ "MB"
  | .unsupportedType t => "Unsupported content type: " ++ t
  | .timeout m => "Download timeout: " ++ m
  | .httpStatus c => "HTTP " ++ toString c
  | .requestFailed m => "Request failed: " ++ m

/-- `content_length = response.headers.get("content-length")` followed by
`if content_length and int(content_length) > settings.MAX_DOWNLOAD_SIZE`. -/
def checkContentLength (h : Option Nat) : Except DownloadErr Unit :=
  match h with
  | some n => if n > MAX_DOWNLOAD_SIZE then .error (.tooLarge n) else .ok ()
  | none => .ok ()

/-- `response.headers.get("content-type", "").split(";")[0].strip()`. -/
def parseContentType (h : Option String) : String := pyStrip (splitSemiHead (h.getD ""))

/-- `if content_type and content_type not in ALLOWED_MIME_TYPES: raise ...`. -/
def checkContentType (t : String) : Except DownloadErr Unit :=
  if t ≠ "" ∧ t ∉ ALLOWED_MIME_TYPES then .error (.unsupportedType t) else .ok ()

/-- Extension resolution of `download_file`: extension of the URL path,
else `mimetypes.guess_extension(content_type)` when a content type is
present, else the hardcoded `".png"` fallback. -/
def resolveExt (guessExt : String → Option String) (urlPath contentType : String) :
    String :=
  let ext := splitextExt urlPath
  let ext := if ext = "" ∧ contentType ≠ "" then (guessExt contentType).getD ext else ext
  if ext = "" then ".png" else ext

/-- `download_file(client, url)`.  `guessExt` is the `mimetypes` table,
`urlPath` is `urlparse(url).path` (the stdlib URL parser is treated as a
collaborator), and `gets i` is the outcome the network would give the
`i`-th GET issued for this URL.  The code issues exactly one GET, so only
`gets 0` is consulted.  Returns the byte length of the downloaded content
together with the resolved extension, or the raised `DownloadError`. -/
def download_file (guessExt : String → Option String) (urlPath : String)
    (gets : Nat → GetResult) : Except DownloadErr (Nat × String) :=
  match gets 0 with
  | .timeout msg => .error (.timeout msg)
  | .httpStatusError code => .error (.httpStatus code)
  | .requestError msg => .error (.requestFailed msg)
  | .ok resp =>
    match checkContentLength resp.contentLength with
    | .error e => .error e
    | .ok () =>
      let contentType := parseContentType resp.contentTypeHeader
      match checkContentType contentType with
      | .error e => .error e
      | .ok () => .ok (resp.bodyLen, resolveExt guessExt urlPath contentType)

example : download_file (fun _ => none) "/a.pdf"
    (fun _ => .ok ⟨some 5, some "application/pdf", 5⟩) = .ok (5, ".pdf") := by decide

example : download_file (fun _ => none) "/a.pdf"
    (fun _ => .ok ⟨some (11 * 1024 * 1024), some "application/pdf", 5⟩)
    = .error (.tooLarge (11 * 1024 * 1024)) := by decide

example : download_file (fun _ => none) "/a"
    (fun _ => .ok ⟨some 5, some "text/html; charset=utf-8", 5⟩)
    = .error (.unsupportedType "text/html") := by decide

/- ## Resource Guard (`temp_file_cleanup` / `temp_dir_cleanup`)

The filesystem is a list of existing paths.  Each context manager creates
a fresh path on entry and runs its `finally` block on every exit; the
`finally` block checks `os.path.exists` and then removes, logging (not
re-raising) an `OSError` from the removal.  An injected removal failure is
the `osFails` flag. -/

/-- `finally` block of `temp_file_cleanup`: `if os.path.exists(tmp_path):
try: os.remove(tmp_path) except OSError: log`. -/
def temp_file_cleanup_finally (fs : List String) (tmpPath : String)
    (osFails : Bool) : List String :=
  if fs.contains tmpPath then
    if osFails then fs else fs.filter (· ≠ tmpPath)
  else fs

/-- `finally` block of `temp_dir_cleanup`: `if os.path.exists(tmp_dir):
try: shutil.rmtree(tmp_dir) except OSError: log`. -/
def temp_dir_cleanup_finally (fs : List String) (tmpDir : String)
    (osFails : Bool) : List String :=
  if fs.contains tmpDir then
    if osFails then fs else fs.filter (· ≠ tmpDir)
  else fs

/- ## Result Extractor (`extract_markdown`)

The scratch directory's contents are an association list of
(filename, content) in creation order; `save_to_markdown` writes files
into it (overwriting an existing name), `os.listdir` hands back the names
which the code then sorts. -/

/-- One result object of the engine output (e.g. one page): whether it has
the `save_to_markdown` method and, if so, the files a call to it writes. -/
structure PageResult where
  hasSaveToMarkdown : Bool
  files : List (String × String)
deriving DecidableEq, Repr

/-- `pipeline.predict` may give back `None` or a list of result objects. -/
abbrev EngineOutput := Option (List PageResult)

def writeFile (dir : List (String × String)) (name content : String) :
    List (String × String) :=
  if dir.any (fun p => p.1 = name) then
    dir.map (fun p => if p.1 = name then (name, content) else p)
  else dir ++ [(name, content)]

/-- The write phase of `extract_markdown`: `if output: for res in output:
if hasattr(res, "save_to_markdown"): res.save_to_markdown(save_path=temp_out_dir)`
(iterating an empty list writes nothing, so the truthiness guard on
`output` only matters for `None`). -/
def writeAll (dir : List (String × String)) (output : EngineOutput) :
    List (String × String) :=
  match output with
  | none => dir
  | some results =>
      results.foldl
        (fun d r =>
          if r.hasSaveToMarkdown then
            r.files.foldl (fun d f => writeFile d f.1 f.2) d
          else d)
        dir

def readFileD (dir : List (String × String)) (name : String) : String :=
  ((dir.find? (fun p => p.1 = name)).map Prod.snd).getD ""

/-- `for filename in sorted(os.listdir(temp_out_dir)): if filename.endswith(".md")`. -/
def mdFileNames (dir : List (String × String)) : List String :=
  (isort pyStrLe (dir.map Prod.fst)).filter (fun n => strEnds n ".md")

/-- `extract_markdown(output, temp_out_dir)`: write phase, then concatenate
the markdown-suffixed files in sorted filename order, `"\n\n"` after each,
and `strip()` the aggregate.  A file whose read raises is skipped after
logging; reads are modelled as succeeding. -/
def extract_markdown (output : EngineOutput) (dir0 : List (String × String)) :
    String :=
  let dir := writeAll dir0 output
  let md := (mdFileNames dir).foldl (fun acc n => acc ++ readFileD dir n ++ "\n\n") ""
  pyStrip md

example : extract_markdown (some [⟨true, [("b.md", "B"), ("a.md", "A")]⟩]) []
    = "A\n\nB" := by decide

example : extract_markdown (some [⟨true, [("a.txt", "T")]⟩]) [] = "" := by decide

example : extract_markdown none [] = "" := by decide

/- ## Recognition call and per-URL pipeline (`run_ocr`, `process_single_url`) -/

/-- Outcome of `await run_ocr(executor, pipeline, path)` in one run:
the engine's output, an engine exception (`Exception` subclass, carrying
`type(e).__name__` and `str(e)`), or an `asyncio` cancellation
(`CancelledError`, a `BaseException` that no `except` clause of
`process_single_url` catches). -/
inductive RunOcrOutcome
  | ok (output : EngineOutput)
  | raise (excType excMsg : String)
  | cancelled
deriving DecidableEq, Repr

/-- Environment of one URL's processing: the stdlib collaborators, the
network's responses, the engine's behaviour, the scratch paths the OS
hands out, and injected cleanup failures. -/
structure UrlEnv where
  guessExt : String → Option String
  urlPath : String
  gets : Nat → GetResult
  ocr : RunOcrOutcome
  tmpFileName : String
  tmpDirName : String
  removeFileFails : Bool
  removeDirFails : Bool

/-- `len(output) if output else 0`. -/
def pagesCount (output : EngineOutput) : Nat :=
  match output with
  | none => 0
  | some l => l.length

/-- Result of one `process_single_url` call: the value it returns (or
`Except.error ()` when a cancellation propagates out of it), the final
filesystem, and how many network downloads / recognition-engine
dispatches it performed. -/
structure ItemRun where
  result : Except Unit OCRResult
  fs : List String
  downloadCalls : Nat
  recognitionCalls : Nat
deriving Repr

/-- `process_single_url(client, url, pipeline, executor)` over the explicit
filesystem `fs0`.  Mirrors the source: download, scratch file scope,
`run_ocr`, scratch dir scope around `extract_markdown`, empty-result
check, and the two `except` clauses mapping `DownloadError` to
`"download_error"` and any other `Exception` to `"processing_error"`. -/
def process_single_url (env : UrlEnv) (url : String) (fs0 : List String) : ItemRun :=
  match download_file env.guessExt env.urlPath env.gets with
  | .error e =>
      { result := .ok { url := url, status := .error, error := some e.render,
                        error_type := some "download_error" },
        fs := fs0, downloadCalls := 1, recognitionCalls := 0 }
  | .ok (_contentLen, _ext) =>
      let fs1 := fs0 ++ [env.tmpFileName]
      match env.ocr with
      | .cancelled =>
          { result := .error (),
            fs := temp_file_cleanup_finally fs1 env.tmpFileName env.removeFileFails,
            downloadCalls := 1, recognitionCalls := 1 }
      | .raise ty msg =>
          { result := .ok { url := url, status := .error,
                            error := some (ty ++ ": " ++ msg),
                            error_type := some "processing_error" },
            fs := temp_file_cleanup_finally fs1 env.tmpFileName env.removeFileFails,
            downloadCalls := 1, recognitionCalls := 1 }
      | .ok output =>
          let fs2 := fs1 ++ [env.tmpDirName]
          let md := extract_markdown output []
          let fs3 := temp_dir_cleanup_finally fs2 env.tmpDirName env.removeDirFails
          let fs4 := temp_file_cleanup_finally fs3 env.tmpFileName env.removeFileFails
          let r : OCRResult :=
            if md = "" then
              { url := url, status := .error, error := some "No text extracted",
                error_type := some "empty_result" }
            else
              { url := url, status := .success, text := some md,
                pages := some (pagesCount output) }
          { result := .ok r, fs := fs4, downloadCalls := 1, recognitionCalls := 1 }

/- ## Batch Orchestrator (`routes.py`, `ocr` endpoint) -/

/-- `asyncio.gather` fills an indexable result structure: slot `i` receives
task `i`'s value at the moment that task completes.  `completion` is the
order in which the tasks happened to finish. -/
def gather_results (outs : List OCRResult) (completion : List Nat) :
    List (Option OCRResult) :=
  completion.foldl
    (fun acc i =>
      match outs.get? i with
      | some r => acc.set i (some r)
      | none => acc)
    (List.replicate outs.length none)

/-- The aggregation of the `ocr` handler: `successful = sum(1 for r in
results if r.status == OCRStatus.SUCCESS)`, `failed = len(results) -
successful`, counters derived from the one results list. -/
def buildResponse (results : List OCRResult) : OCRResponse :=
  let successful := results.countP (fun r => r.status = OCRStatus.success)
  { results := results, total_processed := results.length,
    successful := successful, failed := results.length - successful }

/-- One `process_single_url` task per URL, in input order (each URL's run
touches only its own fresh scratch paths, so items are independent and
each is modelled against its own filesystem view). -/
def itemRuns (env : String → UrlEnv) (urls : List String) : List ItemRun :=
  urls.map (fun u => process_single_url (env u) u [])

structure Trace where
  downloads : Nat
  recognitions : Nat
deriving DecidableEq, Repr

inductive RouteOutcome
  | rejected (validationError : String)
  | cancelled
  | responded (resp : OCRResponse)
deriving DecidableEq, Repr

/-- The `POST /ocr` endpoint: pydantic validates the body into an
`OCRRequest` before the handler runs (a failure is a single validation
error and the handler — hence any download or recognition call — never
runs); the handler then fans out one task per URL, awaits them all, and
aggregates.  If a task is cancelled, `gather` propagates and no response
is produced. -/
def ocr_route (env : String → UrlEnv) (urls : List String) : RouteOutcome × Trace :=
  match OCRRequest_validate urls with
  | .error e => (.rejected e, ⟨0, 0⟩)
  | .ok urls' =>
    let runs := itemRuns env urls'
    let tr : Trace := ⟨(runs.map (·.downloadCalls)).sum, (runs.map (·.recognitionCalls)).sum⟩
    match runs.mapM (fun o => o.result.toOption) with
    | none => (.cancelled, tr)
    | some results => (.responded (buildResponse results), tr)

/- ## Upload path (`process_uploaded_file`, `ocr_upload`) -/

structure UploadEnv where
  guessExt : String → Option String
  ocr : RunOcrOutcome
  tmpFileName : String
  tmpDirName : String
  removeFileFails : Bool
  removeDirFails : Bool

structure UploadRun where
  result : Except Unit (Option String × Option String × Nat)
  fs : List String
  recognitionCalls : Nat
deriving Repr

/-- `process_uploaded_file(content, ext, filename, pipeline, executor)`:
the same scratch-file / recognition / scratch-dir / extraction sequence as
`process_single_url` but with no download and a `(text, error, pages)`
triple, catching any `Exception` into the error slot. -/
def process_uploaded_file (env : UploadEnv) (fs0 : List String) : UploadRun :=
  let fs1 := fs0 ++ [env.tmpFileName]
  match env.ocr with
  | .cancelled =>
      { result := .error (),
        fs := temp_file_cleanup_finally fs1 env.tmpFileName env.removeFileFails,
        recognitionCalls := 1 }
  | .raise ty msg =>
      { result := .ok (none, some (ty ++ ": " ++ msg), 0),
        fs := temp_file_cleanup_finally fs1 env.tmpFileName env.removeFileFails,
        recognitionCalls := 1 }
  | .ok output =>
      let fs2 := fs1 ++ [env.tmpDirName]
      let md := extract_markdown output []
      let fs3 := temp_dir_cleanup_finally fs2 env.tmpDirName env.removeDirFails
      let fs4 := temp_file_cleanup_finally fs3 env.tmpFileName env.removeFileFails
      let triple :=
        if md = "" then (none, some "No text extracted from document", 0)
        else (some md, none, pagesCount output)
      { result := .ok triple, fs := fs4, recognitionCalls := 1 }

/-- An uploaded multipart file as the route sees it: `file.filename`,
`file.content_type`, and the byte length of `await file.read()`. -/
structure UploadFile where
  filename : Option String
  content_type : Option String
  contentLen : Nat
deriving DecidableEq, Repr

inductive UploadRouteOutcome
  | cancelled
  | responded (resp : UploadOCRResponse)
deriving DecidableEq, Repr

/-- The `POST /ocr_upload` endpoint: content-type allow-list check (only
when a non-empty content type was declared), size check, extension
resolution from the filename with `mimetypes` then `".png"` fallback,
then `process_uploaded_file`.  The second component counts recognition
calls made. -/
def ocr_upload (env : UploadEnv) (file : UploadFile) : UploadRouteOutcome × Nat :=
  let filename := file.filename.getD "uploaded_file"
  let content_type := file.content_type.getD ""
  if content_type ≠ "" ∧ content_type ∉ ALLOWED_MIME_TYPES then
    (.responded { status := .error,
                  error := some ("Unsupported content type: " ++ content_type),
                  filename := filename }, 0)
  else if file.contentLen > MAX_DOWNLOAD_SIZE then
    (.responded { status := .error,
                  error := some ("File too large: " ++ mbRender file.contentLen
                                  ++ "MB (max: 10MB)"),
                  filename := filename }, 0)
  else
    let run := process_uploaded_file env []
    match run.result with
    | .error () => (.cancelled, run.recognitionCalls)
    | .ok (text, error, pages) =>
      match error with
      | some e =>
          (.responded { status := .error, error := some e, filename := filename },
           run.recognitionCalls)
      | none =>
          (.responded { status := .success, text := text, pages := some pages,
                        filename := filename }, run.recognitionCalls)

/- ## Recognition Gateway concurrency (`main.py` lifespan, `run_ocr`)

`lifespan` creates `ThreadPoolExecutor(max_workers=1)` and every
`run_ocr` routes its `pipeline.predict` call through it via
`run_in_executor`.  The executor is modelled as a queue machine: tasks
wait in `pending` in arrival order, a `start` step may begin the head
task while fewer than `maxWorkers` run, a `finish` step completes a
running task. -/

def executor_max_workers : Nat := 1

structure ExecState where
  pending : List Nat
  running : List Nat
  finished : List Nat
deriving DecidableEq, Repr

inductive ExecStep (maxWorkers : Nat) : ExecState → ExecState → Prop
  | start (t : Nat) (rest running finished : List Nat) :
      running.length < maxWorkers →
      ExecStep maxWorkers ⟨t :: rest, running, finished⟩ ⟨rest, running ++ [t], finished⟩
  | finish (pending : List Nat) (t : Nat) (rest finished : List Nat) :
      ExecStep maxWorkers ⟨pending, t :: rest, finished⟩ ⟨pending, rest, finished ++ [t]⟩

/-- The executor's initial state once the `run_ocr` invocations `calls`
(identified by arrival order) have been submitted. -/
def run_ocr_queue (calls : List Nat) : ExecState := ⟨calls, [], []⟩

def ExecReachable (maxWorkers : Nat) (calls : List Nat) (s : ExecState) : Prop :=
  Relation.ReflTransGen (ExecStep maxWorkers) (run_ocr_queue calls) s

/- ## Retry Controller (`mcp_server/tools.py`, `ocr_document`) -/

/-- One item of the remote service's JSON `results` list as the tool reads
it; `none` covers an absent or null field (both falsy where the code tests
truthiness). -/
structure RemoteItem where
  status : Option String := none
  text : Option String := none
  error : Option String := none
deriving DecidableEq, Repr

structure RemoteResponse where
  hasResultsKey : Bool
  results : List RemoteItem
deriving DecidableEq, Repr

def truthy (o : Option String) : Bool :=
  match o with
  | some s => s ≠ ""
  | none => false

/-- Loop body collecting `markdown_outputs` and `errors` from the parsed
response. -/
def collectItem (acc : List String × List String) (res : RemoteItem) :
    List String × List String :=
  if res.status = some "success" ∧ truthy res.text then
    (acc.1 ++ [res.text.getD ""], acc.2)
  else if truthy res.text then (acc.1 ++ [res.text.getD ""], acc.2)
  else if truthy res.error then (acc.1, acc.2 ++ [res.error.getD ""])
  else acc

/-- What `ocr_document` returns once a POST succeeded: join the collected
texts with `"\n\n---\n\n"`, else report the collected errors, else the
no-text message. -/
def parseOcrResponse (r : RemoteResponse) : String :=
  if r.hasResultsKey ∧ r.results ≠ [] then
    let pair := r.results.foldl collectItem ([], [])
    if pair.1 ≠ [] then joinSep "\n\n---\n\n" pair.1
    else if pair.2 ≠ [] then "OCR Failed: " ++ joinSep "; " pair.2
    else "No text extracted from document."
  else "No text extracted from document."

/-- Outcome of the `attempt`-th `client.post` to the OCR service. -/
inductive PostOutcome
  | ok (resp : RemoteResponse)
  | timeout
  | statusError (code : Nat)
  | connectionError (excName : String)
  | otherError (excName excMsg : String)
deriving DecidableEq, Repr

def RETRY_ATTEMPTS : Nat := 3

/-- Observable run of the tool: the returned string, the number of POST
attempts made, and the `asyncio.sleep(2 ** attempt)` backoffs performed,
in order. -/
structure ToolRun where
  output : String
  attempts : Nat
  sleeps : List Nat
deriving DecidableEq, Repr

/-- The `for attempt in range(retry_attempts)` loop of `ocr_document`:
a successful POST returns the parsed body; a timeout or connection error
sleeps `2 ** attempt` seconds and retries unless it was the last attempt,
whose failure returns the exhaustion message; an HTTP status error or any
other exception returns immediately.  `fuel` is the number of loop
iterations left (`RETRY_ATTEMPTS - attempt`). -/
def ocr_document_go (posts : Nat → PostOutcome) (attempt : Nat) :
    Nat → List Nat → ToolRun
  | 0, sleeps =>
      { output := "OCR Failed: Max retries (" ++ toString RETRY_ATTEMPTS ++ ") exceeded",
        attempts := attempt, sleeps := sleeps }
  | fuel + 1, sleeps =>
      match posts attempt with
      | .ok resp =>
          { output := parseOcrResponse resp, attempts := attempt + 1, sleeps := sleeps }
      | .timeout =>
          if attempt < RETRY_ATTEMPTS - 1 then
            ocr_document_go posts (attempt + 1) fuel (sleeps ++ [2 ^ attempt])
          else
            { output := "OCR Failed: Timeout after " ++ toString RETRY_ATTEMPTS
                          ++ " attempts",
              attempts := attempt + 1, sleeps := sleeps }
      | .statusError code =>
          { output := "OCR Failed: HTTP " ++ toString code,
            attempts := attempt + 1, sleeps := sleeps }
      | .connectionError n =>
          if attempt < RETRY_ATTEMPTS - 1 then
            ocr_document_go posts (attempt + 1) fuel (sleeps ++ [2 ^ attempt])
          else
            { output := "OCR Failed: Connection error - " ++ n,
              attempts := attempt + 1, sleeps := sleeps }
      | .otherError n m =>
          { output := "OCR Failed: " ++ n ++ ": " ++ m,
            attempts := attempt + 1, sleeps := sleeps }

/-- The `ocr_document` MCP tool: URL-scheme gate, then the retry loop. -/
def ocr_document (posts : Nat → PostOutcome) (file_url : String) : ToolRun :=
  if ¬ (strStarts file_url "http://" || strStarts file_url "https://") then
    { output := "Error: Invalid URL scheme. Provided: " ++ file_url,
      attempts := 0, sleeps := [] }
  else ocr_document_go posts 0 RETRY_ATTEMPTS []

example : ocr_document (fun _ => .timeout) "http://u"
    = ⟨"OCR Failed: Timeout after 3 attempts", 3, [1, 2]⟩ := by decide

example : ocr_document (fun _ => .statusError 500) "http://u"
    = ⟨"OCR Failed: HTTP 500", 1, []⟩ := by decide

example : ocr_document (fun i => if i < 2 then .connectionError "ConnectError"
      else .ok ⟨true, [{ status := some "success", text := some "T" }]⟩) "http://u"
    = ⟨"T", 3, [1, 2]⟩ := by decide

/- ## Helper lemmas -/

/-- Whatever happens, a result `process_single_url` returns carries the
processed URL, so batch responses correlate back to inputs. -/
lemma process_single_url_url (env : UrlEnv) (url : String) (fs0 : List String)
    (r : OCRResult) (h : (process_single_url env url fs0).result = .ok r) :
    r.url = url := by
  unfold process_single_url at h
  split at h
  · simp only [Except.ok.injEq] at h
    exact h ▸ rfl
  · split at h
    · simp at h
    · simp only [Except.ok.injEq] at h
      exact h ▸ rfl
    · simp only [Except.ok.injEq] at h
      subst h
      split <;> rfl

/- ## C3 -/

/-- C3: for every URL of an accepted batch, process_single_url is total
(absent cancellation, which Python's `except Exception` deliberately does
not catch): a DownloadError yields status ERROR with error_type
"download_error", an engine exception yields "processing_error", an
extraction producing empty text yields "empty_result" (distinct from a
processing failure); and an item's run is a function of that item's own
environment only, so one item's failure cannot cancel or alter a sibling's
result. -/
theorem C3_item_errors_captured :
    (∀ (env : UrlEnv) (url : String) (fs0 : List String),
      env.ocr ≠ RunOcrOutcome.cancelled →
      ∃ r, (process_single_url env url fs0).result = .ok r ∧
        (∀ e, download_file env.guessExt env.urlPath env.gets = .error e →
          r.status = .error ∧ r.error_type = some "download_error") ∧
        (∀ v ty msg, download_file env.guessExt env.urlPath env.gets = .ok v →
          env.ocr = .raise ty msg →
          r.status = .error ∧ r.error_type = some "processing_error") ∧
        (∀ v output, download_file env.guessExt env.urlPath env.gets = .ok v →
          env.ocr = .ok output → extract_markdown output [] = "" →
          r.status = .error ∧ r.error_type = some "empty_result" ∧
            r.error_type ≠ some "processing_error")) ∧
    ∀ (e e' : String → UrlEnv) (u : String) (fs0 : List String), e u = e' u →
      process_single_url (e u) u fs0 = process_single_url (e' u) u fs0 := by
  constructor
  · intro env url fs0 hnc
    rcases hdl : download_file env.guessExt env.urlPath env.gets with e | v
    · refine ⟨{ url := url, status := .error, error := some e.render,
                error_type := some "download_error" }, ?_, ?_, ?_, ?_⟩
      · unfold process_single_url
        rw [hdl]
      · intro e' _
        exact ⟨rfl, rfl⟩
      · intro v ty msg hok _
        cases hok
      · intro v output hok _ _
        cases hok
    · rcases hocr : env.ocr with output | ⟨ty, msg⟩ | _
      · by_cases hmd : extract_markdown output [] = ""
        · refine ⟨{ url := url, status := .error, error := some "No text extracted",
                    error_type := some "empty_result" }, ?_, ?_, ?_, ?_⟩
          · unfold process_single_url
            rw [hdl, hocr]
            simp [hmd]
          · intro e he
            cases he
          · intro v' ty msg _ hraise
            cases hraise
          · intro v' output' _ hout _
            cases hout
            exact ⟨rfl, rfl, by simp⟩
        · refine ⟨{ url := url, status := .success,
                    text := some (extract_markdown output []),
                    pages := some (pagesCount output) }, ?_, ?_, ?_, ?_⟩
          · unfold process_single_url
            rw [hdl, hocr]
            simp [hmd]
          · intro e he
            cases he
          · intro v' ty msg _ hraise
            cases hraise
          · intro v' output' _ hout hmd'
            cases hout
            exact absurd hmd' hmd
      · refine ⟨{ url := url, status := .error, error := some (ty ++ ": " ++ msg),
                  error_type := some "processing_error" }, ?_, ?_, ?_, ?_⟩
        · unfold process_single_url
          rw [hdl, hocr]
        · intro e he
          cases he
        · intro v' ty' msg' _ hraise
          cases hraise
          exact ⟨rfl, rfl⟩
        · intro v' output' _ hout _
          cases hout
      · exact (hnc hocr).elim
  · intro e e' u fs0 h
    rw [h]

/-- Witness for C3 at a concrete run whose download times out. -/
theorem C3_item_errors_captured_witness :
    ∃ r, (process_single_url
        { guessExt := fun _ => none, urlPath := "/d.pdf",
          gets := fun _ => .timeout "t",
          ocr := .ok none,
          tmpFileName := "/tmp/f", tmpDirName := "/tmp/d",
          removeFileFails := false, removeDirFails := false }
        "http://h/d.pdf" []).result = .ok r ∧
      r.status = .error ∧ r.error_type = some "download_error" := by
  obtain ⟨r, hr, hdl, -, -⟩ := C3_item_errors_captured.1
    { guessExt := fun _ => none, urlPath := "/d.pdf",
      gets := fun _ => .timeout "t",
      ocr := .ok none,
      tmpFileName := "/tmp/f", tmpDirName := "/tmp/d",
      removeFileFails := false, removeDirFails := false }
    "http://h/d.pdf" [] (by decide)
  exact ⟨r, hr, hdl (.timeout "t") (by decide)⟩

/- ## C4 -/

/-- C4: batch structural validation is an all-or-nothing gate evaluated
strictly before any per-item work: a batch that is empty, longer than 10,
or containing any URL without an http/https scheme fails validation with
a single error (also when just one URL among valid ones is malformed),
and a batch failing validation is rejected with zero downloads and zero
recognition calls. -/
theorem C4_validation_gate (urls : List String) :
    ((∃ e, OCRRequest_validate urls = .error e) ↔
      (urls = [] ∨ urls.length > MAX_URLS_PER_REQUEST ∨
        ∃ u ∈ urls, urlSchemeOk u = false)) ∧
    ∀ e, OCRRequest_validate urls = .error e →
      ∀ env, ocr_route env urls = (RouteOutcome.rejected e, ⟨0, 0⟩) := by
  constructor
  · unfold OCRRequest_validate
    by_cases h1 : urls.length < 1
    · have hnil : urls = [] := List.length_eq_zero.mp (by omega)
      simp only [if_pos h1]
      exact ⟨fun _ => Or.inl hnil, fun _ => ⟨_, rfl⟩⟩
    · rw [if_neg h1]
      by_cases h2 : urls.length > MAX_URLS_PER_REQUEST
      · simp only [if_pos h2]
        exact ⟨fun _ => Or.inr (Or.inl h2), fun _ => ⟨_, rfl⟩⟩
      · rw [if_neg h2]
        unfold validate_urls
        cases hf : urls.find? (fun u => ¬ urlSchemeOk u) with
        | some u =>
          constructor
          · intro _
            refine Or.inr (Or.inr ⟨u, List.mem_of_find?_eq_some hf, ?_⟩)
            have := List.find?_some hf
            simpa using this
          · intro _
            exact ⟨_, rfl⟩
        | none =>
          constructor
          · rintro ⟨e, he⟩
            cases he
          · rintro (hnil | hlong | ⟨u, hu, hbad⟩)
            · exact absurd (hnil ▸ rfl : urls.length = 0) (by omega)
            · exact absurd hlong h2
            · have := List.find?_eq_none.mp hf u hu
              simp [hbad] at this
  · intro e he env
    unfold ocr_route
    rw [he]

/-- Witness for C4: one malformed URL among valid ones rejects the whole
batch with no downloads and no recognition calls. -/
theorem C4_validation_gate_witness :
    ocr_route
      (fun _ => { guessExt := fun _ => none, urlPath := "", gets := fun _ => .timeout "t",
                  ocr := .ok none, tmpFileName := "/tmp/f", tmpDirName := "/tmp/d",
                  removeFileFails := false, removeDirFails := false })
      ["https://ok.example/a.png", "nope"]
      = (RouteOutcome.rejected "URL must start with http:// or https://: nope", ⟨0, 0⟩) :=
  (C4_validation_gate ["https://ok.example/a.png", "nope"]).2
    "URL must start with http:// or https://: nope" (by decide) _

/- ## C7 -/

/-- C7: every state the single-worker execution queue can reach from a
batch of submitted run_ocr calls has at most one call executing against
the engine, and the calls are served in FIFO arrival order (the started
calls are exactly a prefix of the arrival list). -/
theorem C7_single_worker_fifo (calls : List Nat) (s : ExecState)
    (h : ExecReachable executor_max_workers calls s) :
    s.running.length ≤ 1 ∧
    s.finished ++ s.running ++ s.pending = calls ∧
    s.finished ++ s.running
      = calls.take (s.finished.length + s.running.length) := by
  have main : s.running.length ≤ executor_max_workers ∧
      s.finished ++ s.running ++ s.pending = calls := by
    induction h with
    | refl => exact ⟨by simp [run_ocr_queue, executor_max_workers], by simp [run_ocr_queue]⟩
    | tail hsteps step ih =>
      cases step with
      | start t rest running finished hlt =>
        have hrun : running.length = 0 := by
          simpa [executor_max_workers, Nat.lt_one_iff] using hlt
        refine ⟨by simp [hrun, executor_max_workers], ?_⟩
        have := ih.2
        simp only [List.append_assoc] at this ⊢
        simpa [List.singleton_append] using this
      | finish pending t rest finished =>
        refine ⟨?_, ?_⟩
        · show rest.length ≤ executor_max_workers
          have h1 : (t :: rest).length ≤ executor_max_workers := ih.1
          simp only [List.length_cons] at h1
          omega
        · have := ih.2
          simp only [List.append_assoc, List.cons_append, List.singleton_append,
            List.nil_append] at this ⊢
          exact this
  have hc : (s.finished ++ s.running) ++ s.pending = calls := main.2
  refine ⟨by simpa [executor_max_workers] using main.1, main.2, ?_⟩
  rw [← hc, ← List.length_append, List.take_left]

/-- Witness for C7: two queued calls, the first started. -/
theorem C7_single_worker_fifo_witness :
    (ExecState.mk [1] [0] []).running.length ≤ 1 ∧
    (ExecState.mk [1] [0] []).finished ++ (ExecState.mk [1] [0] []).running
        ++ (ExecState.mk [1] [0] []).pending = [0, 1] ∧
    (ExecState.mk [1] [0] []).finished ++ (ExecState.mk [1] [0] []).running
      = ([0, 1] : List Nat).take ((ExecState.mk [1] [0] []).finished.length
          + (ExecState.mk [1] [0] []).running.length) :=
  C7_single_worker_fifo [0, 1] (ExecState.mk [1] [0] [])
    (Relation.ReflTransGen.single (ExecStep.start 0 [1] [] [] (by decide)))

/- ## C5 -/

/-- Reduction of download_file once the GET came back with a response. -/
lemma download_file_get_ok (g : String → Option String) (p : String)
    (gets : Nat → GetResult) (resp : HttpResp) (hget : gets 0 = .ok resp) :
    download_file g p gets
      = match checkContentLength resp.contentLength with
        | .error e => .error e
        | .ok _ =>
          match checkContentType (parseContentType resp.contentTypeHeader) with
          | .error e => .error e
          | .ok _ => .ok (resp.bodyLen,
              resolveExt g p (parseContentType resp.contentTypeHeader)) := by
  unfold download_file
  rw [hget]
  rfl

/-- C5 counterexample: the claimed independent re-check of the actual byte
length after download does not exist.  A response with no Content-Length
header and a 15MB body is accepted by download_file, not rejected with a
size violation. -/
theorem C5_counterexample :
    download_file (fun _ => none) "/img.png"
      (fun _ => .ok ⟨none, some "image/png", 15 * 1024 * 1024⟩)
      = .ok (15 * 1024 * 1024, ".png") ∧
    15 * 1024 * 1024 > MAX_DOWNLOAD_SIZE := ⟨by decide, by decide⟩

/-- C5 amended: download_file rejects oversized files only through the
Content-Length header: a present header above 10MB raises a size-violation
DownloadError, but the actual body length is never re-checked — the
verdict of a successful GET is entirely independent of the body size, so
an oversized body with an absent or understating header is returned
successfully. -/
theorem C5_size_check_header_only :
    (∀ (g : String → Option String) (p : String) (gets : Nat → GetResult)
        (resp : HttpResp) (n : Nat),
      gets 0 = .ok resp → resp.contentLength = some n → n > MAX_DOWNLOAD_SIZE →
      download_file g p gets = .error (.tooLarge n)) ∧
    (∀ (g : String → Option String) (p : String) (resp : HttpResp) (m : Nat),
      download_file g p (fun _ => .ok { resp with bodyLen := m })
        = (download_file g p (fun _ => .ok resp)).map (fun v => (m, v.2))) := by
  constructor
  · intro g p gets resp n hget hcl hgt
    rw [download_file_get_ok g p gets resp hget]
    split
    · rename_i e heq
      rw [hcl] at heq
      simp [checkContentLength, hgt] at heq
      rw [heq]
    · rename_i u heq
      rw [hcl] at heq
      simp [checkContentLength, hgt] at heq
  · intro g p resp m
    obtain ⟨cl, ct, bl⟩ := resp
    show download_file g p (fun _ => .ok ⟨cl, ct, m⟩)
        = (download_file g p (fun _ => .ok ⟨cl, ct, bl⟩)).map (fun v => (m, v.2))
    unfold download_file
    cases hcl : checkContentLength cl with
    | error e => simp [hcl, Except.map]
    | ok u =>
      cases hct : checkContentType (parseContentType ct) with
      | error e => simp [hcl, hct, Except.map]
      | ok u2 => simp [hcl, hct, Except.map]

/-- Witness for C5 amended: a header declaring 20MB is rejected before the
body matters. -/
theorem C5_size_check_header_only_witness :
    download_file (fun _ => none) "/img.png"
      (fun _ => .ok ⟨some (20 * 1024 * 1024), some "image/png", 5⟩)
      = .error (.tooLarge (20 * 1024 * 1024)) :=
  C5_size_check_header_only.1 (fun _ => none) "/img.png"
    (fun _ => .ok ⟨some (20 * 1024 * 1024), some "image/png", 5⟩)
    ⟨some (20 * 1024 * 1024), some "image/png", 5⟩ (20 * 1024 * 1024)
    rfl rfl (by decide)

/- ## C9 -/

/-- C9 counterexample: the claim says a disallowed content type is
rejected "even when the content-type header is missing".  In the code the
check is guarded by Python truthiness (`if content_type and ...`), so a
response with no content-type header is accepted and processed: the
download path returns the bytes (with the `.png` fallback extension), and
the upload path dispatches the document to the recognition engine
(one recognition call made). -/
theorem C9_counterexample :
    download_file (fun _ => none) "/f"
      (fun _ => .ok ⟨some 5, none, 5⟩) = .ok (5, ".png") ∧
    (ocr_upload
      { guessExt := fun _ => none, ocr := .ok (some [⟨true, [("p.md", "hello")]⟩]),
        tmpFileName := "/tmp/f", tmpDirName := "/tmp/d",
        removeFileFails := false, removeDirFails := false }
      { filename := some "scan", content_type := none, contentLen := 5 }).2 = 1 :=
  ⟨by decide, by decide⟩

/-- C9 amended: a present, non-empty content type outside the allow-list
is rejected before any bytes reach the recognition engine — download_file
raises DownloadError (after the header size check), and the upload path
returns an error response with zero recognition calls.  A missing or
empty content type, however, is not rejected: the download is accepted
(falling back to URL-extension guessing and then ".png"). -/
theorem C9_content_type_gate :
    (∀ (g : String → Option String) (p : String) (gets : Nat → GetResult)
        (resp : HttpResp) (t : String),
      gets 0 = .ok resp → checkContentLength resp.contentLength = .ok () →
      parseContentType resp.contentTypeHeader = t → t ≠ "" →
      t ∉ ALLOWED_MIME_TYPES →
      download_file g p gets = .error (.unsupportedType t)) ∧
    (∀ (env : UploadEnv) (file : UploadFile) (ct : String),
      file.content_type = some ct → ct ≠ "" → ct ∉ ALLOWED_MIME_TYPES →
      ocr_upload env file
        = (.responded { status := .error,
                        error := some ("Unsupported content type: " ++ ct),
                        filename := file.filename.getD "uploaded_file" }, 0)) ∧
    (∀ (g : String → Option String) (p : String) (gets : Nat → GetResult)
        (resp : HttpResp),
      gets 0 = .ok resp → resp.contentTypeHeader = none →
      checkContentLength resp.contentLength = .ok () →
      ∃ v, download_file g p gets = .ok v) := by
  refine ⟨?_, ?_, ?_⟩
  · intro g p gets resp t hget hclen hct htne htmem
    rw [download_file_get_ok g p gets resp hget]
    split
    · rename_i e heq
      rw [hclen] at heq
      cases heq
    · rename_i u heq
      split
      · rename_i e heq2
        rw [hct] at heq2
        simp [checkContentType, htne, htmem] at heq2
        rw [heq2]
      · rename_i u2 heq2
        rw [hct] at heq2
        simp [checkContentType, htne, htmem] at heq2
  · intro env file ct hct hctne hctmem
    unfold ocr_upload
    dsimp only
    rw [hct]
    simp only [Option.getD_some]
    rw [if_pos ⟨hctne, hctmem⟩]
  · intro g p gets resp hget hcth hclen
    refine ⟨(resp.bodyLen, resolveExt g p (parseContentType resp.contentTypeHeader)), ?_⟩
    rw [download_file_get_ok g p gets resp hget, hclen, hcth]
    rfl

/-- Witness for C9 amended at concrete inputs: a declared `text/html` is
rejected on both paths, a missing header is accepted on the download path. -/
theorem C9_content_type_gate_witness :
    download_file (fun _ => none) "/f"
      (fun _ => .ok ⟨some 5, some "text/html", 5⟩)
      = .error (.unsupportedType "text/html") ∧
    ocr_upload
      { guessExt := fun _ => none, ocr := .ok none,
        tmpFileName := "/tmp/f", tmpDirName := "/tmp/d",
        removeFileFails := false, removeDirFails := false }
      { filename := some "scan.html", content_type := some "text/html", contentLen := 5 }
      = (.responded { status := .error,
                      error := some ("Unsupported content type: " ++ "text/html"),
                      filename := "scan.html" }, 0) ∧
    ∃ v, download_file (fun _ => none) "/f"
      (fun _ => .ok ⟨some 5, none, 5⟩) = .ok v := by
  refine ⟨?_, ?_, ?_⟩
  · exact C9_content_type_gate.1 (fun _ => none) "/f"
      (fun _ => .ok ⟨some 5, some "text/html", 5⟩) ⟨some 5, some "text/html", 5⟩
      "text/html" rfl (by decide) (by decide) (by decide) (by decide)
  · exact C9_content_type_gate.2.1
      { guessExt := fun _ => none, ocr := .ok none,
        tmpFileName := "/tmp/f", tmpDirName := "/tmp/d",
        removeFileFails := false, removeDirFails := false }
      { filename := some "scan.html", content_type := some "text/html", contentLen := 5 }
      "text/html" rfl (by decide) (by decide)
  · exact C9_content_type_gate.2.2 (fun _ => none) "/f"
      (fun _ => .ok ⟨some 5, none, 5⟩) ⟨some 5, none, 5⟩ rfl rfl (by decide)

/- ## C6 -/

/-- C6 counterexample: the claim asserts the download is wrapped by the
retry controller (up to 3 attempts, retrying timeouts).  download_file
makes exactly one GET: a first-attempt timeout yields an immediate
DownloadError even though a retry would have found a valid response. -/
theorem C6_counterexample :
    download_file (fun _ => none) "/a.pdf"
      (fun i => if i = 0 then .timeout "t"
                else .ok ⟨some 5, some "application/pdf", 5⟩)
      = .error (.timeout "t") := by decide

lemma ocr_document_go_attempts_le (posts : Nat → PostOutcome) :
    ∀ (fuel attempt : Nat) (sleeps : List Nat),
      (ocr_document_go posts attempt fuel sleeps).attempts ≤ attempt + fuel := by
  intro fuel
  induction fuel with
  | zero =>
    intro attempt sleeps
    simp [ocr_document_go]
  | succ n ih =>
    intro attempt sleeps
    unfold ocr_document_go
    split
    · show attempt + 1 ≤ attempt + (n + 1)
      omega
    · split
      · exact le_trans (ih (attempt + 1) _) (by omega)
      · show attempt + 1 ≤ attempt + (n + 1)
        omega
    · show attempt + 1 ≤ attempt + (n + 1)
      omega
    · split
      · exact le_trans (ih (attempt + 1) _) (by omega)
      · show attempt + 1 ≤ attempt + (n + 1)
        omega
    · show attempt + 1 ≤ attempt + (n + 1)
      omega

/-- C6 amended: the single-document OCR call in ocr_document makes up to
exactly 3 attempts with exponential backoff of 2^attempt seconds between
attempts, retrying only on timeouts and connection errors; an HTTP error
status fails immediately on the first occurrence; exhaustion yields
terminal errors distinguishing timeout exhaustion from connection
exhaustion from non-retryable failure.  The download in download_file,
contrary to the claim, is not retried: it consults only the first network
response. -/
theorem C6_retry_controller :
    (∀ resp : RemoteResponse,
      ocr_document (fun i => if i < 2 then .timeout else .ok resp) "http://u"
        = ⟨parseOcrResponse resp, 3, [1, 2]⟩) ∧
    (ocr_document (fun _ => .timeout) "http://u"
        = ⟨"OCR Failed: Timeout after 3 attempts", 3, [1, 2]⟩) ∧
    (∀ n, ocr_document (fun _ => .connectionError n) "http://u"
        = ⟨"OCR Failed: Connection error - " ++ n, 3, [1, 2]⟩) ∧
    (∀ c, ocr_document (fun _ => .statusError c) "http://u"
        = ⟨"OCR Failed: HTTP " ++ toString c, 1, []⟩) ∧
    (∀ (posts : Nat → PostOutcome) (url : String),
      (ocr_document posts url).attempts ≤ RETRY_ATTEMPTS) ∧
    (∀ (g : String → Option String) (p : String) (gets : Nat → GetResult),
      download_file g p gets
        = download_file g p (fun i => if i = 0 then gets 0 else .timeout "unreached")) := by
  refine ⟨fun resp => rfl, by decide, fun n => rfl, fun c => rfl, ?_, fun g p gets => rfl⟩
  intro posts url
  unfold ocr_document
  split
  · simp [RETRY_ATTEMPTS]
  · exact ocr_document_go_attempts_le posts RETRY_ATTEMPTS 0 []

/- ## C1 -/

lemma mapM_option_spec {α β : Type} (f : α → Option β) :
    ∀ (l : List α) (res : List β), l.mapM f = some res →
      res.length = l.length ∧ ∀ i, res.get? i = (l.get? i).bind f := by
  intro l
  induction l with
  | nil =>
    intro res h
    simp only [List.mapM_nil, pure, Option.some.injEq] at h
    subst h
    exact ⟨rfl, fun i => by simp⟩
  | cons a t ih =>
    intro res h
    rw [List.mapM_cons] at h
    cases hfa : f a with
    | none =>
      rw [hfa] at h
      simp at h
    | some b =>
      rw [hfa] at h
      cases hmt : t.mapM f with
      | none =>
        rw [hmt] at h
        simp at h
      | some bs =>
        rw [hmt] at h
        simp only [Option.bind_eq_bind, Option.some_bind, pure,
          Option.some.injEq] at h
        subst h
        obtain ⟨hlen, hget⟩ := ih bs hmt
        refine ⟨by simp [hlen], ?_⟩
        intro i
        cases i with
        | zero => simp [hfa]
        | succ n => simpa using hget n

lemma gather_results_get? (outs : List OCRResult) :
    ∀ (completion : List Nat) (acc : List (Option OCRResult)),
      acc.length = outs.length → ∀ j,
      (completion.foldl (fun acc i =>
          match outs.get? i with
          | some r => acc.set i (some r)
          | none => acc) acc).get? j
        = if j ∈ completion ∧ j < outs.length then some (outs.get? j)
          else acc.get? j := by
  intro completion
  induction completion with
  | nil =>
    intro acc _ j
    simp
  | cons i rest ih =>
    intro acc hlen j
    rw [List.foldl_cons]
    have hlen' : (match outs.get? i with
        | some r => acc.set i (some r)
        | none => acc).length = outs.length := by
      cases outs.get? i <;> simp [hlen]
    rw [ih _ hlen' j]
    by_cases hj1 : j ∈ rest ∧ j < outs.length
    · rw [if_pos hj1, if_pos ⟨List.mem_cons_of_mem i hj1.1, hj1.2⟩]
    · rw [if_neg hj1]
      by_cases hj2 : j = i ∧ j < outs.length
      · obtain ⟨rfl, hjlt⟩ := hj2
        obtain ⟨r, hr⟩ : ∃ r, outs.get? j = some r :=
          ⟨outs.get ⟨j, hjlt⟩, List.get?_eq_get hjlt⟩
        rw [if_pos ⟨List.mem_cons_self j rest, hjlt⟩, hr,
          List.get?_set_eq_of_lt _ (hlen ▸ hjlt)]
      · have hcond : ¬ (j ∈ i :: rest ∧ j < outs.length) := by
          rintro ⟨hm, hlt⟩
          rcases List.mem_cons.mp hm with rfl | hm'
          · exact hj2 ⟨rfl, hlt⟩
          · exact hj1 ⟨hm', hlt⟩
        rw [if_neg hcond]
        cases houts : outs.get? i with
        | none => rfl
        | some r =>
          have hne : i ≠ j := by
            rintro rfl
            obtain ⟨hlt, -⟩ := List.get?_eq_some.mp houts
            exact hj2 ⟨rfl, hlt⟩
          exact List.get?_set_ne _ _ hne

/-- asyncio.gather returns the results in task order whenever every slot
eventually completes, whatever the completion order was. -/
lemma gather_results_eq (outs : List OCRResult) (completion : List Nat)
    (hperm : completion.Perm (List.range outs.length)) :
    gather_results outs completion = outs.map some := by
  apply List.ext_get?
  intro j
  unfold gather_results
  rw [gather_results_get? outs completion _ (by simp) j]
  by_cases hj : j < outs.length
  · have hmem : j ∈ completion := hperm.mem_iff.mpr (List.mem_range.mpr hj)
    rw [if_pos ⟨hmem, hj⟩, List.get?_map]
    obtain ⟨r, hr⟩ : ∃ r, outs.get? j = some r :=
      ⟨outs.get ⟨j, hj⟩, List.get?_eq_get hj⟩
    rw [hr]
    rfl
  · rw [if_neg (fun hc => hj hc.2), List.get?_map,
      List.get?_eq_none.mpr (by simpa using Nat.le_of_not_lt hj),
      List.get?_eq_none.mpr (by omega)]
    rfl

/-- C1: for every valid accepted batch whose items all complete (no
cancellation), the endpoint responds with one OCRResult per input URL,
results[i] is the result of processing urls[i] and carries that URL,
gather reassembles the results in input order for any completion
permutation, and the counters satisfy successful = #SUCCESS results and
successful + failed = total_processed = number of input URLs. -/
theorem C1_batch_counts_and_order (env : String → UrlEnv) (urls : List String)
    (results : List OCRResult) (completion : List Nat)
    (hv : OCRRequest_validate urls = .ok urls)
    (hres : (itemRuns env urls).mapM (fun o => o.result.toOption) = some results)
    (hperm : completion.Perm (List.range results.length)) :
    (ocr_route env urls).1 = RouteOutcome.responded (buildResponse results) ∧
    results.length = urls.length ∧
    (∀ i, i < urls.length →
      results.get? i
        = (process_single_url (env (urls.getD i "")) (urls.getD i "") []).result.toOption) ∧
    (∀ i, i < urls.length → ∃ r, results.get? i = some r ∧ r.url = urls.getD i "") ∧
    gather_results results completion = results.map some ∧
    (buildResponse results).successful
        = results.countP (fun r => r.status = OCRStatus.success) ∧
    (buildResponse results).successful + (buildResponse results).failed
        = (buildResponse results).total_processed ∧
    (buildResponse results).total_processed = urls.length := by
  obtain ⟨hlen, hget⟩ := mapM_option_spec _ (itemRuns env urls) results hres
  have hlen' : results.length = urls.length := by
    simpa [itemRuns] using hlen
  have hitem : ∀ i, i < urls.length →
      results.get? i
        = (process_single_url (env (urls.getD i "")) (urls.getD i "") []).result.toOption := by
    intro i hi
    obtain ⟨u, hu⟩ : ∃ u, urls.get? i = some u :=
      ⟨urls.get ⟨i, hi⟩, List.get?_eq_get hi⟩
    have hgd : urls.getD i "" = u := by
      rw [List.getD_eq_get?, hu]
      rfl
    rw [hget i, itemRuns, List.get?_map, hu, hgd]
    rfl
  refine ⟨?_, hlen', hitem, ?_, gather_results_eq results completion hperm, rfl, ?_, ?_⟩
  · unfold ocr_route
    rw [hv]
    dsimp only
    rw [hres]
  · intro i hi
    obtain ⟨r, hr⟩ : ∃ r, results.get? i = some r :=
      ⟨results.get ⟨i, hlen' ▸ hi⟩, List.get?_eq_get (hlen' ▸ hi)⟩
    refine ⟨r, hr, ?_⟩
    have := hitem i hi
    rw [hr] at this
    cases hpr : (process_single_url (env (urls.getD i "")) (urls.getD i "") []).result with
    | error u =>
      rw [hpr] at this
      cases this
    | ok a =>
      rw [hpr] at this
      cases this
      exact process_single_url_url _ _ _ _ hpr
  · show results.countP (fun r => r.status = OCRStatus.success)
        + (results.length - results.countP (fun r => r.status = OCRStatus.success))
        = results.length
    exact Nat.add_sub_of_le (List.countP_le_length _)
  · exact hlen'

/-- Witness for C1: a two-URL batch whose first item succeeds and second
times out, completing in reverse order. -/
theorem C1_batch_counts_and_order_witness :
    (ocr_route
        (fun u => if u = "http://h/a.pdf" then
          { guessExt := fun _ => none, urlPath := "/a.pdf",
            gets := fun _ => .ok ⟨some 5, some "application/pdf", 5⟩,
            ocr := .ok (some [⟨true, [("p.md", "hello")]⟩]),
            tmpFileName := "/tmp/f1", tmpDirName := "/tmp/d1",
            removeFileFails := false, removeDirFails := false }
          else
          { guessExt := fun _ => none, urlPath := "/b.png",
            gets := fun _ => .timeout "t",
            ocr := .ok none,
            tmpFileName := "/tmp/f2", tmpDirName := "/tmp/d2",
            removeFileFails := false, removeDirFails := false })
        ["http://h/a.pdf", "http://h/b.png"]).1
      = RouteOutcome.responded (buildResponse
          [{ url := "http://h/a.pdf", status := .success, text := some "hello",
             pages := some 1 },
           { url := "http://h/b.png", status := .error,
             error := some "Download timeout: t",
             error_type := some "download_error" }]) ∧
    gather_results
        [{ url := "http://h/a.pdf", status := .success, text := some "hello",
           pages := some 1 },
         { url := "http://h/b.png", status := .error,
           error := some "Download timeout: t",
           error_type := some "download_error" }] [1, 0]
      = List.map some
          [{ url := "http://h/a.pdf", status := .success, text := some "hello",
             pages := some 1 },
           { url := "http://h/b.png", status := .error,
             error := some "Download timeout: t",
             error_type := some "download_error" }] ∧
    (buildResponse
        [{ url := "http://h/a.pdf", status := .success, text := some "hello",
           pages := some 1 },
         { url := "http://h/b.png", status := .error,
           error := some "Download timeout: t",
           error_type := some "download_error" }]).successful
      + (buildResponse
        [{ url := "http://h/a.pdf", status := .success, text := some "hello",
           pages := some 1 },
         { url := "http://h/b.png", status := .error,
           error := some "Download timeout: t",
           error_type := some "download_error" }]).failed
      = (buildResponse
        [{ url := "http://h/a.pdf", status := .success, text := some "hello",
           pages := some 1 },
         { url := "http://h/b.png", status := .error,
           error := some "Download timeout: t",
           error_type := some "download_error" }]).total_processed := by
  obtain ⟨h1, -, -, -, h5, -, h7, -⟩ := C1_batch_counts_and_order
    (fun u => if u = "http://h/a.pdf" then
      { guessExt := fun _ => none, urlPath := "/a.pdf",
        gets := fun _ => .ok ⟨some 5, some "application/pdf", 5⟩,
        ocr := .ok (some [⟨true, [("p.md", "hello")]⟩]),
        tmpFileName := "/tmp/f1", tmpDirName := "/tmp/d1",
        removeFileFails := false, removeDirFails := false }
      else
      { guessExt := fun _ => none, urlPath := "/b.png",
        gets := fun _ => .timeout "t",
        ocr := .ok none,
        tmpFileName := "/tmp/f2", tmpDirName := "/tmp/d2",
        removeFileFails := false, removeDirFails := false })
    ["http://h/a.pdf", "http://h/b.png"]
    [{ url := "http://h/a.pdf", status := .success, text := some "hello",
       pages := some 1 },
     { url := "http://h/b.png", status := .error,
       error := some "Download timeout: t",
       error_type := some "download_error" }]
    [1, 0] (by decide) (by decide) (by decide)
  exact ⟨h1, h5, h7⟩

/- ## C8 -/

/-- C8 counterexample: extract_markdown applies Python `strip()` to the
final aggregate, so the result is not literally "a.md's content, then a
blank line, then b.md's content" whenever a content carries leading or
trailing whitespace: with b.md = "B " (written first) and a.md = "A", the
code returns "A\n\nB", not "A\n\nB ". -/
theorem C8_counterexample :
    extract_markdown (some [⟨true, [("b.md", "B "), ("a.md", "A")]⟩]) [] = "A\n\nB" ∧
    "A" ++ "\n\n" ++ "B " ≠ "A\n\nB" := ⟨by decide, by decide⟩

lemma dropWhile_append_of_fixed {p : Char → Bool} {a rest : List Char}
    (ha : a.dropWhile p = a) (hne : a ≠ []) :
    (a ++ rest).dropWhile p = a ++ rest := by
  rw [List.dropWhile_append, ha]
  simp [hne]

lemma char_toNat_inj {a b : Char} (h : a.toNat = b.toNat) : a = b := by
  have h2 := congrArg Char.ofNat h
  rwa [Char.ofNat_toNat, Char.ofNat_toNat] at h2

lemma listCharLe_total : ∀ a b : List Char, listCharLe a b = true ∨ listCharLe b a = true
  | [], _ => Or.inl rfl
  | _ :: _, [] => Or.inr rfl
  | a :: as, b :: bs => by
    by_cases hab : a = b
    · subst hab
      rcases listCharLe_total as bs with h | h
      · left
        simpa [listCharLe] using h
      · right
        simpa [listCharLe] using h
    · have hne : a.toNat ≠ b.toNat := fun h => hab (char_toNat_inj h)
      have hba : b ≠ a := fun h => hab h.symm
      rcases Nat.lt_or_ge a.toNat b.toNat with h | h
      · left
        simp [listCharLe, hab, charLt, h]
      · have hlt : b.toNat < a.toNat := Nat.lt_of_le_of_ne h (fun hh => hne hh.symm)
        right
        simp [listCharLe, hba, charLt, hlt]

lemma listCharLe_trans : ∀ a b c : List Char,
    listCharLe a b = true → listCharLe b c = true → listCharLe a c = true
  | [], _, _, _, _ => rfl
  | _ :: _, [], _, h1, _ => by simp [listCharLe] at h1
  | _ :: _, _ :: _, [], _, h2 => by simp [listCharLe] at h2
  | a :: as, b :: bs, c :: cs, h1, h2 => by
    by_cases hab : a = b
    · subst hab
      by_cases hac : a = c
      · subst hac
        simp only [listCharLe, if_pos rfl] at h1 h2 ⊢
        exact listCharLe_trans as bs cs h1 h2
      · simp only [listCharLe, if_pos rfl] at h1
        simpa [listCharLe, hac] using h2
    · simp only [listCharLe, if_neg hab, charLt, decide_eq_true_eq] at h1
      by_cases hbc : b = c
      · subst hbc
        simp [listCharLe, hab, charLt, h1]
      · simp only [listCharLe, if_neg hbc, charLt, decide_eq_true_eq] at h2
        have hac' : a.toNat < c.toNat := Nat.lt_trans h1 h2
        have hac : a ≠ c := by
          rintro rfl
          exact Nat.lt_irrefl _ hac'
        simp [listCharLe, hac, charLt, hac']

lemma pyStrLe_total (s t : String) : pyStrLe s t = true ∨ pyStrLe t s = true :=
  listCharLe_total s.data t.data

lemma pyStrLe_trans {s t u : String} (h1 : pyStrLe s t = true)
    (h2 : pyStrLe t u = true) : pyStrLe s u = true :=
  listCharLe_trans s.data t.data u.data h1 h2

lemma insertLe_perm (le : String → String → Bool) (x : String) :
    ∀ l : List String, (insertLe le x l).Perm (x :: l)
  | [] => List.Perm.refl _
  | y :: ys => by
    unfold insertLe
    split
    · exact List.Perm.refl _
    · exact ((insertLe_perm le x ys).cons y).trans (List.Perm.swap x y ys)

lemma isort_perm (le : String → String → Bool) :
    ∀ l : List String, (isort le l).Perm l
  | [] => List.Perm.refl _
  | x :: xs =>
      (insertLe_perm le x (isort le xs)).trans ((isort_perm le xs).cons x)

lemma insertLe_pairwise (x : String) :
    ∀ l : List String, l.Pairwise (fun a b => pyStrLe a b = true) →
      (insertLe pyStrLe x l).Pairwise (fun a b => pyStrLe a b = true)
  | [], _ => by simp [insertLe]
  | y :: ys, h => by
    unfold insertLe
    obtain ⟨hy, hys⟩ := List.pairwise_cons.mp h
    split
    · rename_i hxy
      refine List.pairwise_cons.mpr ⟨?_, h⟩
      intro z hz
      rcases List.mem_cons.mp hz with rfl | hz'
      · exact hxy
      · exact pyStrLe_trans hxy (hy z hz')
    · rename_i hxy
      have hyx : pyStrLe y x = true := by
        rcases pyStrLe_total x y with h' | h'
        · exact absurd h' hxy
        · exact h'
      refine List.pairwise_cons.mpr ⟨?_, insertLe_pairwise x ys hys⟩
      intro z hz
      rcases List.mem_cons.mp ((insertLe_perm pyStrLe x ys).mem_iff.mp hz)
        with rfl | hz'
      · exact hyx
      · exact hy z hz'

lemma isort_pairwise : ∀ l : List String,
    (isort pyStrLe l).Pairwise (fun a b => pyStrLe a b = true)
  | [] => List.Pairwise.nil
  | x :: xs => insertLe_pairwise x (isort pyStrLe xs) (isort_pairwise xs)

/-- The general behaviour of extract_markdown on any directory state and
engine output: the result is obtained by taking exactly the
".md"-suffixed filenames of the directory (after the write phase), in an
order sorted by Python's string order, reading each file, appending a
blank-line separator after each content, and stripping the aggregate. -/
lemma extract_markdown_spec (output : EngineOutput) (dir0 : List (String × String)) :
    ∃ ns : List String,
      ns.Pairwise (fun a b => pyStrLe a b = true) ∧
      ns.Perm (((writeAll dir0 output).map Prod.fst).filter (fun n => strEnds n ".md")) ∧
      (∀ n ∈ ns, strEnds n ".md" = true) ∧
      extract_markdown output dir0
        = pyStrip (String.join (ns.map
            (fun n => readFileD (writeAll dir0 output) n ++ "\n\n"))) := by
  refine ⟨mdFileNames (writeAll dir0 output), ?_, ?_, ?_, ?_⟩
  · exact (isort_pairwise _).filter _
  · exact (isort_perm pyStrLe _).filter _
  · intro n hn
    exact (List.mem_filter.mp hn).2
  · show pyStrip ((mdFileNames (writeAll dir0 output)).foldl
        (fun acc n => acc ++ readFileD (writeAll dir0 output) n ++ "\n\n") "")
      = pyStrip (String.join ((mdFileNames (writeAll dir0 output)).map
          (fun n => readFileD (writeAll dir0 output) n ++ "\n\n")))
    congr 1
    unfold String.join
    rw [List.foldl_map]
    simp only [String.append_assoc]

lemma pyStrip_wrap (ca cb : String)
    (hane : ca ≠ "") (hbne : cb ≠ "")
    (ha1 : ca.data.dropWhile isPyWs = ca.data)
    (hb2 : cb.data.reverse.dropWhile isPyWs = cb.data.reverse) :
    pyStrip (ca ++ "\n\n" ++ cb ++ "\n\n") = ca ++ "\n\n" ++ cb := by
  have hA : ca.data ≠ [] := fun h => hane (String.ext h)
  have hB : cb.data ≠ [] := fun h => hbne (String.ext h)
  have hBrev : cb.data.reverse ≠ [] := by simp [hB]
  have hnl : isPyWs '\n' = true := by decide
  apply String.ext
  show pyStripChars (ca.data ++ ['\n', '\n'] ++ cb.data ++ ['\n', '\n'])
      = ca.data ++ ['\n', '\n'] ++ cb.data
  unfold pyStripChars
  simp only [List.append_assoc]
  rw [dropWhile_append_of_fixed ha1 hA]
  simp only [List.reverse_append, List.reverse_cons, List.reverse_nil,
    List.nil_append, List.cons_append, List.append_assoc, List.singleton_append]
  rw [List.dropWhile_cons, hnl, if_pos rfl, List.dropWhile_cons, hnl, if_pos rfl]
  rw [dropWhile_append_of_fixed hb2 hBrev]
  simp only [List.reverse_append, List.reverse_cons, List.reverse_nil,
    List.reverse_reverse, List.nil_append, List.cons_append, List.append_assoc,
    List.singleton_append]

/-- C8 amended: for every directory contents and engine output,
extract_markdown reads exactly the files whose names end in ".md" (a
permutation of the ".md"-filtered directory names — non-.md files are
ignored), in sorted filename order (pairwise ordered by Python's string
order, not write order; in particular writing b.md before a.md or after
gives the same result), concatenates each content followed by a
blank-line separator, and strips leading/trailing whitespace from the
aggregate; for contents with no leading or trailing whitespace the
two-file scenario gives exactly "a.md's content, blank line, b.md's
content".  The function is pure, so equal inputs give equal outputs. -/
theorem C8_extraction_sorted_deterministic :
    (∀ (output : EngineOutput) (dir0 : List (String × String)),
      ∃ ns : List String,
        ns.Pairwise (fun a b => pyStrLe a b = true) ∧
        ns.Perm (((writeAll dir0 output).map Prod.fst).filter
          (fun n => strEnds n ".md")) ∧
        (∀ n ∈ ns, strEnds n ".md" = true) ∧
        extract_markdown output dir0
          = pyStrip (String.join (ns.map
              (fun n => readFileD (writeAll dir0 output) n ++ "\n\n")))) ∧
    (∀ ca cb : String,
      extract_markdown (some [⟨true, [("b.md", cb), ("a.md", ca)]⟩]) []
        = pyStrip (ca ++ "\n\n" ++ cb ++ "\n\n")) ∧
    (∀ ca cb : String,
      extract_markdown (some [⟨true, [("b.md", cb), ("a.md", ca)]⟩]) []
        = extract_markdown (some [⟨true, [("a.md", ca), ("b.md", cb)]⟩]) []) ∧
    (∀ ca cb : String, ca ≠ "" → cb ≠ "" →
      ca.data.dropWhile isPyWs = ca.data →
      ca.data.reverse.dropWhile isPyWs = ca.data.reverse →
      cb.data.dropWhile isPyWs = cb.data →
      cb.data.reverse.dropWhile isPyWs = cb.data.reverse →
      extract_markdown (some [⟨true, [("b.md", cb), ("a.md", ca)]⟩]) []
        = ca ++ "\n\n" ++ cb) := by
  have hbase : ∀ ca cb : String,
      extract_markdown (some [⟨true, [("b.md", cb), ("a.md", ca)]⟩]) []
        = pyStrip (ca ++ "\n\n" ++ cb ++ "\n\n") := by
    intro ca cb
    show pyStrip ("" ++ ca ++ "\n\n" ++ cb ++ "\n\n")
        = pyStrip (ca ++ "\n\n" ++ cb ++ "\n\n")
    rw [String.empty_append]
  refine ⟨extract_markdown_spec, hbase, ?_, ?_⟩
  · intro ca cb
    rw [hbase]
    show pyStrip (ca ++ "\n\n" ++ cb ++ "\n\n")
        = pyStrip ("" ++ ca ++ "\n\n" ++ cb ++ "\n\n")
    rw [String.empty_append]
  · intro ca cb hane hbne ha1 _ _ hb2
    rw [hbase]
    exact pyStrip_wrap ca cb hane hbne ha1 hb2

example : extract_markdown
    (some [⟨true, [("b.md", "B"), ("notes.txt", "T"), ("a.md", "A")]⟩]) []
    = "A\n\nB" := by decide

/-- Witness for C8 amended at concrete contents. -/
theorem C8_extraction_sorted_deterministic_witness :
    extract_markdown (some [⟨true, [("b.md", "B"), ("a.md", "A")]⟩]) []
      = "A" ++ "\n\n" ++ "B" :=
  C8_extraction_sorted_deterministic.2.2.2 "A" "B" (by decide) (by decide)
    (by decide) (by decide) (by decide) (by decide)

/- ## C10 -/

/-- C10: every OCRResult produced by process_single_url is internally
coherent: status SUCCESS implies a non-empty text, no error, no
error_type, and pages set; status ERROR implies error and error_type both
set and text None; no result is simultaneously success-shaped and
error-shaped. -/
theorem C10_result_coherent (env : UrlEnv) (url : String) (fs0 : List String)
    (r : OCRResult) (h : (process_single_url env url fs0).result = .ok r) :
    (r.status = OCRStatus.success →
      (∃ t, r.text = some t ∧ t ≠ "") ∧ r.error = none ∧ r.error_type = none ∧
        ∃ p, r.pages = some p) ∧
    (r.status = OCRStatus.error →
      (∃ e, r.error = some e) ∧ (∃ k, r.error_type = some k) ∧ r.text = none) ∧
    ¬ (r.status = OCRStatus.success ∧ r.status = OCRStatus.error) := by
  unfold process_single_url at h
  split at h
  · simp only [Except.ok.injEq] at h
    subst h
    refine ⟨?_, ?_, ?_⟩
    · intro hs; cases hs
    · intro _; exact ⟨⟨_, rfl⟩, ⟨_, rfl⟩, rfl⟩
    · rintro ⟨hs, -⟩; cases hs
  · split at h
    · simp at h
    · simp only [Except.ok.injEq] at h
      subst h
      refine ⟨?_, ?_, ?_⟩
      · intro hs; cases hs
      · intro _; exact ⟨⟨_, rfl⟩, ⟨_, rfl⟩, rfl⟩
      · rintro ⟨hs, -⟩; cases hs
    · simp only [Except.ok.injEq] at h
      subst h
      split
      · refine ⟨?_, ?_, ?_⟩
        · intro hs; cases hs
        · intro _; exact ⟨⟨_, rfl⟩, ⟨_, rfl⟩, rfl⟩
        · rintro ⟨hs, -⟩; cases hs
      · rename_i hmd
        refine ⟨?_, ?_, ?_⟩
        · intro _; exact ⟨⟨_, rfl, hmd⟩, rfl, rfl, _, rfl⟩
        · intro he; cases he
        · rintro ⟨-, he⟩; cases he

/- ## C2 -/

lemma temp_dir_eq_temp_file_cleanup :
    temp_dir_cleanup_finally = temp_file_cleanup_finally := rfl

/-- The cleanup action removes its own path when the OS call succeeds. -/
lemma cleanup_self_removed (fs : List String) (p : String) :
    p ∉ temp_file_cleanup_finally fs p false := by
  unfold temp_file_cleanup_finally
  split
  · simp [List.mem_filter]
  · rename_i hc
    intro hm
    exact hc (List.elem_iff.mpr hm)

/-- The cleanup action never makes another path exist. -/
lemma cleanup_no_new (fs : List String) (p x : String) (b : Bool)
    (hx : x ∉ fs) : x ∉ temp_file_cleanup_finally fs p b := by
  unfold temp_file_cleanup_finally
  split
  · split
    · exact hx
    · intro hm
      exact hx (List.mem_of_mem_filter hm)
  · exact hx

/-- C2: the scratch file and scratch directory acquired while processing
one document are gone after the owning scope exits, on every exit path
(download failure acquires nothing; engine exception, cancellation,
empty extraction and success all run the finally blocks), and a failing
cleanup action (injected OSError) never changes the primary
result/exception of the processing. -/
theorem C2_scratch_resources_released (env : UrlEnv) (url : String)
    (fs0 : List String) (hneq : env.tmpFileName ≠ env.tmpDirName) :
    ((env.tmpFileName ∉ fs0 → env.removeFileFails = false →
        env.tmpFileName ∉ (process_single_url env url fs0).fs) ∧
     (env.tmpDirName ∉ fs0 → env.removeDirFails = false →
        env.tmpDirName ∉ (process_single_url env url fs0).fs)) ∧
    ∀ b₁ b₂ : Bool,
      (process_single_url
          { env with removeFileFails := b₁, removeDirFails := b₂ } url fs0).result
        = (process_single_url env url fs0).result := by
  refine ⟨⟨?_, ?_⟩, ?_⟩
  · -- the scratch file is gone
    intro hf hff
    unfold process_single_url
    split
    · exact hf
    · split
      · rw [hff]; exact cleanup_self_removed _ _
      · rw [hff]; exact cleanup_self_removed _ _
      · rw [hff, temp_dir_eq_temp_file_cleanup]
        exact cleanup_self_removed _ _
  · -- the scratch directory is gone
    intro hd hdf
    unfold process_single_url
    split
    · exact hd
    · have hd1 : env.tmpDirName ∉ fs0 ++ [env.tmpFileName] := by
        intro hm
        rcases List.mem_append.mp hm with hm | hm
        · exact hd hm
        · exact hneq (List.mem_singleton.mp hm).symm
      split
      · exact cleanup_no_new _ _ _ _ hd1
      · exact cleanup_no_new _ _ _ _ hd1
      · rw [hdf, temp_dir_eq_temp_file_cleanup]
        exact cleanup_no_new _ _ _ _
          (cleanup_self_removed (fs0 ++ [env.tmpFileName] ++ [env.tmpDirName]) _)
  · -- cleanup failures never mask the primary result
    intro b₁ b₂
    unfold process_single_url
    rcases hdl : download_file env.guessExt env.urlPath env.gets with e | v
    · rfl
    · rcases env.ocr with output | ⟨ty, msg⟩ | _ <;> rfl

/-- Witness for C2: a run whose engine call raises; the scratch paths are
absent afterwards and injected cleanup failures leave the result intact. -/
theorem C2_scratch_resources_released_witness :
    "/tmp/f" ∉ (process_single_url
        { guessExt := fun _ => none, urlPath := "/d.pdf",
          gets := fun _ => .ok ⟨some 5, some "application/pdf", 5⟩,
          ocr := .raise "RuntimeError" "boom",
          tmpFileName := "/tmp/f", tmpDirName := "/tmp/d",
          removeFileFails := false, removeDirFails := false }
        "http://h/d.pdf" []).fs ∧
    "/tmp/d" ∉ (process_single_url
        { guessExt := fun _ => none, urlPath := "/d.pdf",
          gets := fun _ => .ok ⟨some 5, some "application/pdf", 5⟩,
          ocr := .raise "RuntimeError" "boom",
          tmpFileName := "/tmp/f", tmpDirName := "/tmp/d",
          removeFileFails := false, removeDirFails := false }
        "http://h/d.pdf" []).fs ∧
    (process_single_url
        { guessExt := fun _ => none, urlPath := "/d.pdf",
          gets := fun _ => .ok ⟨some 5, some "application/pdf", 5⟩,
          ocr := .raise "RuntimeError" "boom",
          tmpFileName := "/tmp/f", tmpDirName := "/tmp/d",
          removeFileFails := true, removeDirFails := true }
        "http://h/d.pdf" []).result
      = (process_single_url
        { guessExt := fun _ => none, urlPath := "/d.pdf",
          gets := fun _ => .ok ⟨some 5, some "application/pdf", 5⟩,
          ocr := .raise "RuntimeError" "boom",
          tmpFileName := "/tmp/f", tmpDirName := "/tmp/d",
          removeFileFails := false, removeDirFails := false }
        "http://h/d.pdf" []).result := by
  have h := C2_scratch_resources_released
    { guessExt := fun _ => none, urlPath := "/d.pdf",
      gets := fun _ => .ok ⟨some 5, some "application/pdf", 5⟩,
      ocr := .raise "RuntimeError" "boom",
      tmpFileName := "/tmp/f", tmpDirName := "/tmp/d",
      removeFileFails := false, removeDirFails := false }
    "http://h/d.pdf" [] (by decide)
  exact ⟨h.1.1 (by decide) rfl, h.1.2 (by decide) rfl, h.2 true true⟩
theorem C10_result_coherent_witness :
    ∃ r, (process_single_url
        { guessExt := fun _ => none, urlPath := "/d.pdf",
          gets := fun _ => .ok ⟨some 5, some "application/pdf", 5⟩,
          ocr := .ok (some [⟨true, [("p.md", "hello")]⟩]),
          tmpFileName := "/tmp/f", tmpDirName := "/tmp/d",
          removeFileFails := false, removeDirFails := false }
        "http://h/d.pdf" []).result = .ok r ∧
      (∃ t, r.text = some t ∧ t ≠ "") ∧ r.error = none ∧ r.error_type = none ∧
        ∃ p, r.pages = some p := by
  have h : (process_single_url
      { guessExt := fun _ => none, urlPath := "/d.pdf",
        gets := fun _ => .ok ⟨some 5, some "application/pdf", 5⟩,
        ocr := .ok (some [⟨true, [("p.md", "hello")]⟩]),
        tmpFileName := "/tmp/f", tmpDirName := "/tmp/d",
        removeFileFails := false, removeDirFails := false }
      "http://h/d.pdf" []).result
      = .ok { url := "http://h/d.pdf", status := .success, text := some "hello",
              pages := some 1 } := by decide
  exact ⟨_, h, (C10_result_coherent _ _ _ _ h).1 rfl⟩
